import Mathlib

/-!
Verification of the SPA routing server (`simple_server.py`).

The program is a single-page-application HTTP server built on
`http.server.SimpleHTTPRequestHandler`.  Its whole behaviour is the
routing decision in `SPAHandler.do_GET`:

* parse the raw request target with `urlparse` and keep only the path
  component (query string and fragment discarded, no percent-decoding);
* if the path starts with `/assets/` or ends with one of the fixed static
  extensions, serve it literally;
* otherwise, if the path is not `/` and `os.path.exists('.' + path)` is
  false, rewrite the path to `/`; then delegate to the static file server.

The filesystem is modelled as a map from path strings to an optional
file kind (regular file or directory); `os.path.exists` is true exactly
when the entry is present, whether file or directory.
-/

/-- Kind of a filesystem entry: a regular file or a directory. -/
inductive FileKind where
  | file : FileKind
  | dir : FileKind
deriving DecidableEq

/-- A filesystem state: maps a path string (as the Python code builds it,
e.g. `"./about.html"`) to the kind of entry there, or `none` when nothing
exists at that path. -/
def Fs : Type := String → Option FileKind

/-- The empty filesystem: no path exists. -/
def emptyFs : Fs := fun _ => none

/-- Python `os.path.exists`: true when an entry (file or directory) exists
at the given path. -/
def osPathExists (fs : Fs) (path : String) : Bool :=
  (fs path).isSome

/-- Python `str.startswith`: the second string is a prefix of the first. -/
def pyStartswith (s pre : String) : Bool :=
  pre.data.isPrefixOf s.data

/-- Python `str.endswith`: the second string is a suffix of the first. -/
def pyEndswith (s suf : String) : Bool :=
  suf.data.isSuffixOf s.data

/-- Line 14 of `simple_server.py`: the asset classification
`path.startswith('/assets/') or path.endswith(('.js', '.css', '.png',
'.jpg', '.ico', '.svg'))`.  Python `endswith` on a tuple is the
disjunction over its members. -/
def isAsset (path : String) : Bool :=
  pyStartswith path "/assets/" ||
    (pyEndswith path ".js" || pyEndswith path ".css" || pyEndswith path ".png" ||
     pyEndswith path ".jpg" || pyEndswith path ".ico" || pyEndswith path ".svg")

/-- Lines 14-21 of `simple_server.py`: the routing decision on the parsed
path.  Assets are served literally; otherwise, when the path is not `/`
and `os.path.exists('.' + path)` fails, the serving path is rewritten to
`/`; in every other case the path is served as given. -/
def servePath (fs : Fs) (path : String) : String :=
  if isAsset path = true then path
  else if path ≠ "/" ∧ osPathExists fs ("." ++ path) = false then "/"
  else path

/-- Instrumented routing decision: same result as `servePath`, paired with
the number of filesystem existence queries performed.  Python's `and` in
`path != '/' and not os.path.exists('.' + path)` short-circuits, so the
existence query only runs when `path != '/'` and the asset test failed. -/
def servePathInstr (fs : Fs) (path : String) : String × Nat :=
  if isAsset path = true then (path, 0)
  else if path = "/" then (path, 0)
  else if osPathExists fs ("." ++ path) = false then ("/", 1)
  else (path, 1)

theorem servePathInstr_fst (fs : Fs) (path : String) :
    (servePathInstr fs path).1 = servePath fs path := by
  unfold servePath servePathInstr
  by_cases ha : isAsset path = true
  · simp [ha]
  · by_cases hp : path = "/"
    · simp [ha, hp]
    · by_cases he : osPathExists fs ("." ++ path) = false
      · simp [ha, hp, he]
      · simp [ha, hp, he]

/-- CPython `urlsplit` first strips leading WHATWG C0-control-or-space
characters (code points `0x00`-`0x20`) from the URL. -/
def lstripC0 (l : List Char) : List Char :=
  l.dropWhile (fun c => c.toNat ≤ 32)

/-- CPython `urlsplit` then removes every tab, carriage return and line
feed anywhere in the URL (`_UNSAFE_URL_BYTES_TO_REMOVE`). -/
def removeUnsafeBytes (l : List Char) : List Char :=
  l.filter (fun c => c != '\t' && c != '\r' && c != '\n')

/-- Characters allowed in a URL scheme (`scheme_chars` in
`urllib.parse`): ASCII letters, digits, `+`, `-` and `.`. -/
def isSchemeChar (c : Char) : Bool :=
  c.isAlpha || c.isDigit || c == '+' || c == '-' || c == '.'

/-- CPython `urlsplit` scheme handling: when a `:` occurs at a positive
index, the first character is an ASCII letter and everything before the
`:` is a scheme character, the scheme (and the `:`) is removed. -/
def splitScheme (l : List Char) : List Char :=
  if (l.takeWhile (fun c => c != ':')).length < l.length ∧
      l.takeWhile (fun c => c != ':') ≠ [] ∧
      ((l.takeWhile (fun c => c != ':')).headD ' ').isAlpha = true ∧
      (l.takeWhile (fun c => c != ':')).all isSchemeChar = true then
    l.drop ((l.takeWhile (fun c => c != ':')).length + 1)
  else l

/-- CPython `urlsplit` netloc handling: when the URL starts with `//`, the
netloc extends up to the next `/`, `?` or `#` (`_splitnetloc`) and only
the remainder stays in the path. -/
def splitNetloc (l : List Char) : List Char :=
  if l.take 2 = ['/', '/'] then
    (l.drop 2).dropWhile (fun c => c != '/' && c != '?' && c != '#')
  else l

/-- CPython `urlsplit` fragment and query handling: everything from the
first `#` is the fragment, then everything from the first `?` of the rest
is the query; the path is what remains. -/
def stripFragmentQuery (l : List Char) : List Char :=
  (l.takeWhile (fun c => c != '#')).takeWhile (fun c => c != '?')

/-- Truncation of the last path segment at its first `;` (the search in
CPython `_splitparams` starts at the last `/`); earlier segments are kept
verbatim. -/
def dropParamsLastSeg : List Char → List Char
  | [] => []
  | c :: rest =>
    if c = '/' ∧ rest.contains '/' = false then
      c :: rest.takeWhile (fun x => x != ';')
    else c :: dropParamsLastSeg rest

/-- CPython `urlparse` params handling (`_splitparams`): when the path
contains a `/`, a `;` at or after the last `/` starts the params;
otherwise the first `;` does; the params are split off the path. -/
def splitParams (l : List Char) : List Char :=
  if l.contains '/' = true then dropParamsLastSeg l
  else if l.contains ';' = true then l.takeWhile (fun c => c != ';')
  else l

/-- Lines 10-11 of `simple_server.py`: `urlparse(self.path).path`.
CPython's `urlparse` strips leading control/space characters, removes
tab/CR/LF, splits off a scheme and a `//`-netloc when present, discards
the fragment (from the first `#`) and the query string (from the first
`?` of the rest), and finally splits `;params` off the last path segment.
It performs no percent-decoding. -/
def urlparsePathList (l : List Char) : List Char :=
  splitParams (stripFragmentQuery (splitNetloc (splitScheme
    (removeUnsafeBytes (lstripC0 l)))))

/-- The parsed path component of a raw request target, as a string. -/
def extractPath (s : String) : String :=
  ⟨urlparsePathList s.data⟩

/-- Lines 8-21 of `simple_server.py`: the whole `do_GET` routing, from the
raw request target to the effective serving path. -/
def doGet (fs : Fs) (raw : String) : String :=
  servePath fs (extractPath raw)

/-- Instrumented `do_GET`: effective serving path and number of filesystem
existence queries. -/
def doGetInstr (fs : Fs) (raw : String) : String × Nat :=
  servePathInstr fs (extractPath raw)

/-- Lines 7-8 of `simple_server.py` plus Python method dispatch:
`SPAHandler` overrides only `do_GET`, so a GET request runs the routing
above while every other method falls through to the base
`SimpleHTTPRequestHandler` with `self.path` untouched and with no
filesystem query made by `SPAHandler` itself.  Result: the path handed to
the base handler, paired with the number of existence queries the routing
performed. -/
def handleRequest (fs : Fs) (method raw : String) : String × Nat :=
  if method = "GET" then doGetInstr fs raw else (raw, 0)

theorem isAsset_root : isAsset "/" = false := by decide

theorem isAsset_characterisation (p : String) :
    isAsset p = (pyStartswith p "/assets/" ||
      (pyEndswith p ".js" || pyEndswith p ".css" || pyEndswith p ".png" ||
       pyEndswith p ".jpg" || pyEndswith p ".ico" || pyEndswith p ".svg")) := rfl

/-- C1: a path matching the asset rule (prefix `/assets/` or one of the
six static extensions) is served unmodified, for every filesystem state,
present or absent. -/
theorem c1_asset_path_unmodified (fs : Fs) (p : String)
    (h : (pyStartswith p "/assets/" ||
      (pyEndswith p ".js" || pyEndswith p ".css" || pyEndswith p ".png" ||
       pyEndswith p ".jpg" || pyEndswith p ".ico" || pyEndswith p ".svg")) = true) :
    servePath fs p = p := by
  have ha : isAsset p = true := h
  simp [servePath, ha]

theorem c1_asset_path_unmodified_witness :
    (pyStartswith "/app.js" "/assets/" ||
      (pyEndswith "/app.js" ".js" || pyEndswith "/app.js" ".css" ||
       pyEndswith "/app.js" ".png" || pyEndswith "/app.js" ".jpg" ||
       pyEndswith "/app.js" ".ico" || pyEndswith "/app.js" ".svg")) = true ∧
    servePath emptyFs "/app.js" = "/app.js" :=
  ⟨by decide, c1_asset_path_unmodified emptyFs "/app.js" (by decide)⟩

/-- C2: a non-asset path other than `/` with no entry at the document-root
relative location `'.' + path` is rewritten to `/`. -/
theorem c2_missing_route_rewritten (fs : Fs) (p : String)
    (ha : isAsset p = false) (hp : p ≠ "/")
    (he : osPathExists fs ("." ++ p) = false) :
    servePath fs p = "/" := by
  simp [servePath, ha, hp, he]

theorem c2_missing_route_rewritten_witness :
    isAsset "/dashboard/settings" = false ∧ "/dashboard/settings" ≠ "/" ∧
    osPathExists emptyFs ("." ++ "/dashboard/settings") = false ∧
    servePath emptyFs "/dashboard/settings" = "/" :=
  ⟨by decide, by decide, rfl,
    c2_missing_route_rewritten emptyFs "/dashboard/settings" (by decide) (by decide) rfl⟩

/-- C3: a non-asset path at which an entry exists (under `'.' + path`) is
served unmodified. -/
theorem c3_existing_route_unmodified (fs : Fs) (p : String)
    (ha : isAsset p = false) (he : osPathExists fs ("." ++ p) = true) :
    servePath fs p = p := by
  unfold servePath
  by_cases hp : p = "/"
  · simp [ha, hp]
  · simp [ha, hp, he]

theorem c3_existing_route_unmodified_witness :
    isAsset "/about.html" = false ∧
    osPathExists (fun s => if s = "./about.html" then some FileKind.file else none)
      ("." ++ "/about.html") = true ∧
    servePath (fun s => if s = "./about.html" then some FileKind.file else none)
      "/about.html" = "/about.html" :=
  ⟨by decide, rfl,
    c3_existing_route_unmodified
      (fun s => if s = "./about.html" then some FileKind.file else none)
      "/about.html" (by decide) rfl⟩

/-- C4: the root path `/` is served as-is for every filesystem state, and
the short-circuited `path != '/'` guard means the existence check is never
performed for it (zero filesystem queries). -/
theorem c4_root_served_as_is (fs : Fs) :
    servePath fs "/" = "/" ∧ servePathInstr fs "/" = ("/", 0) := by
  constructor
  · simp [servePath, isAsset_root]
  · simp [servePathInstr, isAsset_root]

theorem servePath_cases (fs : Fs) (p : String) :
    servePath fs p = p ∨ servePath fs p = "/" := by
  unfold servePath
  by_cases ha : isAsset p = true
  · simp [ha]
  · by_cases hp : p = "/"
    · simp [ha, hp]
    · by_cases he : osPathExists fs ("." ++ p) = false
      · simp [ha, hp, he]
      · simp [ha, hp, he]

theorem servePath_root (fs : Fs) : servePath fs "/" = "/" := by
  simp [servePath, isAsset_root]

/-- C5: the routing decision is idempotent — applying it to its own output
changes nothing; in particular `/missing/page` (with no entry at
`./missing/page`) is rewritten to `/`, and `/` is never rewritten further. -/
theorem c5_routing_idempotent (fs : Fs) (p : String)
    (h : fs "./missing/page" = none) :
    servePath fs (servePath fs p) = servePath fs p ∧
    servePath fs "/missing/page" = "/" ∧
    servePath fs "/" = "/" := by
  refine ⟨?_, ?_, servePath_root fs⟩
  · rcases servePath_cases fs p with hE | hE
    · rw [hE]
      exact hE
    · rw [hE, servePath_root]
  · have he : osPathExists fs "./missing/page" = false := by
      rw [osPathExists, h]
      rfl
    have ha : ¬ (isAsset "/missing/page" = true) := by decide
    unfold servePath
    rw [if_neg ha, if_pos]
    exact ⟨by decide, he⟩

theorem c5_routing_idempotent_witness :
    emptyFs "./missing/page" = none ∧
    (servePath emptyFs (servePath emptyFs "/missing/page") =
        servePath emptyFs "/missing/page" ∧
      servePath emptyFs "/missing/page" = "/" ∧
      servePath emptyFs "/" = "/") :=
  ⟨rfl, c5_routing_idempotent emptyFs "/missing/page" rfl⟩

/-- C7 counterexample: the root path `/` is a non-asset request, yet the
routing performs zero filesystem existence queries for it, not one — the
`path != '/'` guard short-circuits before `os.path.exists` runs. -/
theorem c7_counterexample :
    isAsset "/" = false ∧ (servePathInstr emptyFs "/").2 = 0 ∧ (0 : Nat) ≠ 1 := by
  refine ⟨by decide, ?_, by decide⟩
  simp [servePathInstr, isAsset_root]

/-- C7 (amended): a non-asset request performs exactly one filesystem
existence query when its path is not `/`, and zero when it is `/`. -/
theorem c7_existence_query_count (fs : Fs) (p : String)
    (ha : isAsset p = false) :
    (servePathInstr fs p).2 = if p = "/" then 0 else 1 := by
  unfold servePathInstr
  by_cases hp : p = "/"
  · simp [ha, hp]
  · by_cases he : osPathExists fs ("." ++ p) = false
    · simp [ha, hp, he]
    · simp [ha, hp, he]

theorem c7_existence_query_count_witness :
    isAsset "/dashboard" = false ∧
    (servePathInstr emptyFs "/dashboard").2 =
      if "/dashboard" = "/" then 0 else 1 :=
  ⟨by decide, c7_existence_query_count emptyFs "/dashboard" (by decide)⟩

/-- C9: a non-asset path backed by an existing directory (not a regular
file) under the document root passes the `os.path.exists` check — which is
true for directories as well as files — and is served literally, with no
fallback to `/`. -/
theorem c9_directory_served_literally (fs : Fs) (p : String)
    (ha : isAsset p = false) (hd : fs ("." ++ p) = some FileKind.dir) :
    servePath fs p = p := by
  have he : osPathExists fs ("." ++ p) = true := by
    rw [osPathExists, hd]
    rfl
  exact c3_existing_route_unmodified fs p ha he

theorem c9_directory_served_literally_witness :
    isAsset "/docs" = false ∧
    (fun s => if s = "./docs" then some FileKind.dir else none : Fs)
      ("." ++ "/docs") = some FileKind.dir ∧
    servePath (fun s => if s = "./docs" then some FileKind.dir else none)
      "/docs" = "/docs" :=
  ⟨by decide, rfl,
    c9_directory_served_literally
      (fun s => if s = "./docs" then some FileKind.dir else none) "/docs"
      (by decide) rfl⟩

/-- Result of the delegated static-file serving: the file at the given
path, or a not-found status. -/
inductive ServeResult where
  | ok : String → ServeResult
  | notFound : ServeResult
deriving DecidableEq

/-- Modelled from the spec: the path resolution of the delegated static
file server (`SimpleHTTPRequestHandler`, standard library, not part of
this repository).  Per the spec the fallback document is the fixed
relative path `index.html`, "or equivalently `/`", so the serving path `/`
resolves to `./index.html`; any other path resolves against the document
root (the working directory) as `'.' + path`. -/
def translatePath (path : String) : String :=
  if path = "/" then "./index.html" else "." ++ path

/-- Modelled from the spec: the delegated static file serving returns the
file's bytes on success "or a not-found status if no file exists even
after rewriting". -/
def serveStatic (fs : Fs) (path : String) : ServeResult :=
  if osPathExists fs (translatePath path) = true then ServeResult.ok path
  else ServeResult.notFound

/-- C8: with the fallback document `index.html` missing, a non-asset
request whose effective serving path is `/` (rewritten there, or `/`
itself) gets a not-found response from the delegate — and, conversely, a
not-found response after routing can only happen when the effective
serving path is `/`, i.e. for the fallback document itself. -/
theorem c8_missing_fallback_not_found (fs : Fs) (p : String)
    (hidx : osPathExists fs "./index.html" = false) (ha : isAsset p = false) :
    (servePath fs p = "/" →
      serveStatic fs (servePath fs p) = ServeResult.notFound) ∧
    (serveStatic fs (servePath fs p) = ServeResult.notFound →
      servePath fs p = "/") := by
  constructor
  · intro hroot
    rw [hroot]
    simp [serveStatic, translatePath, hidx]
  · intro hnf
    by_contra hne
    rcases servePath_cases fs p with hE | hE
    · rw [hE] at hnf hne
      have hp : p ≠ "/" := hne
      have he : osPathExists fs ("." ++ p) = true := by
        by_contra hee
        have hee' : osPathExists fs ("." ++ p) = false := by
          cases hb : osPathExists fs ("." ++ p)
          · rfl
          · exact absurd hb hee
        have : servePath fs p = "/" := by
          unfold servePath
          rw [if_neg, if_pos ⟨hp, hee'⟩]
          rw [ha]
          simp
        rw [hE] at this
        exact hp this
      rw [serveStatic, translatePath, if_neg hp, he] at hnf
      simp at hnf
    · exact hne hE

theorem c8_missing_fallback_not_found_witness :
    osPathExists emptyFs "./index.html" = false ∧ isAsset "/about" = false ∧
    ((servePath emptyFs "/about" = "/" →
        serveStatic emptyFs (servePath emptyFs "/about") = ServeResult.notFound) ∧
      (serveStatic emptyFs (servePath emptyFs "/about") = ServeResult.notFound →
        servePath emptyFs "/about" = "/")) :=
  ⟨rfl, by decide, c8_missing_fallback_not_found emptyFs "/about" rfl (by decide)⟩

/-- C10: `SPAHandler` overrides only `do_GET`, so for every HTTP method
other than GET the request path reaches the base handler completely
unmodified and the routing performs no filesystem existence query. -/
theorem c10_non_get_unmodified (fs : Fs) (method raw : String)
    (h : method ≠ "GET") :
    handleRequest fs method raw = (raw, 0) := by
  simp [handleRequest, h]

theorem c10_non_get_unmodified_witness :
    ("POST" : String) ≠ "GET" ∧
    handleRequest emptyFs "POST" "/dashboard" = ("/dashboard", 0) :=
  ⟨by decide, c10_non_get_unmodified emptyFs "POST" "/dashboard" (by decide)⟩

/-- Value of an ASCII hexadecimal digit, or `none` for any other
character. -/
def hexDigitVal (c : Char) : Option Nat :=
  if '0' ≤ c ∧ c ≤ '9' then some (c.toNat - '0'.toNat)
  else if 'a' ≤ c ∧ c ≤ 'f' then some (c.toNat - 'a'.toNat + 10)
  else if 'A' ≤ c ∧ c ≤ 'F' then some (c.toNat - 'A'.toNat + 10)
  else none

/-- Fuel-indexed percent-decoding loop: a `%` followed by two hex digits
becomes the encoded character; an invalid escape leaves the `%` literal
and scanning resumes at the following character.  The fuel (one unit per
consumed character) only makes the recursion structural. -/
def percentDecodeAux : Nat → List Char → List Char
  | 0, l => l
  | _ + 1, [] => []
  | fuel + 1, '%' :: a :: b :: rest =>
    (match hexDigitVal a, hexDigitVal b with
    | some hi, some lo => Char.ofNat (16 * hi + lo) :: percentDecodeAux fuel rest
    | _, _ => '%' :: percentDecodeAux fuel (a :: b :: rest))
  | fuel + 1, c :: rest => c :: percentDecodeAux fuel rest

/-- Percent-decoding of a URL string (`urllib.parse.unquote` restricted to
ASCII escapes).  This follows the spec's words — the spec calls the
request path "the decoded path component" — and is used only to compare
that reading against the source, which performs no decoding. -/
def percentDecode (s : String) : String :=
  ⟨percentDecodeAux s.data.length s.data⟩

/-- C6 counterexample: for the raw request target `/app%2Ejs?v=1` the
decoded, query-stripped path component is `/app.js`, which matches the
asset rule — so under the claim no rewrite would apply — yet the code
classifies the undecoded path `/app%2Ejs` as a non-asset and rewrites the
request to `/` on an empty filesystem.  The routing therefore does not
operate on the decoded path component. -/
theorem c6_counterexample :
    percentDecode (extractPath "/app%2Ejs?v=1") = "/app.js" ∧
    isAsset "/app.js" = true ∧
    isAsset (extractPath "/app%2Ejs?v=1") = false ∧
    doGet emptyFs "/app%2Ejs?v=1" = "/" ∧
    ("/" : String) ≠ "/app.js" := by
  refine ⟨by decide, by decide, by decide, ?_, by decide⟩
  show servePath emptyFs (extractPath "/app%2Ejs?v=1") = "/"
  have hx : extractPath "/app%2Ejs?v=1" = "/app%2Ejs" := by decide
  rw [hx]
  have ha : ¬ (isAsset "/app%2Ejs" = true) := by decide
  unfold servePath
  rw [if_neg ha, if_pos]
  exact ⟨by decide, rfl⟩


theorem takeWhile_all (pr : Char → Bool) (l : List Char)
    (h : ∀ a ∈ l, pr a = true) : l.takeWhile pr = l := by
  have := @List.takeWhile_append_of_pos Char pr l [] h
  simpa using this

theorem lstripC0_slash (t : List Char) : lstripC0 ('/' :: t) = '/' :: t := by
  unfold lstripC0
  rw [List.dropWhile_cons_of_neg]
  decide

theorem removeUnsafeBytes_clean (l : List Char) (h : ∀ c ∈ l, 32 < c.toNat) :
    removeUnsafeBytes l = l := by
  refine List.filter_eq_self.mpr ?_
  intro c hc
  have h32 := h c hc
  have ht : c ≠ '\t' := by intro e; subst e; exact absurd h32 (by decide)
  have hr : c ≠ '\r' := by intro e; subst e; exact absurd h32 (by decide)
  have hn : c ≠ '\n' := by intro e; subst e; exact absurd h32 (by decide)
  simp [Bool.and_eq_true, bne_iff_ne]
  exact ⟨⟨ht, hr⟩, hn⟩

theorem removeUnsafeBytes_append (l r : List Char) :
    removeUnsafeBytes (l ++ r) = removeUnsafeBytes l ++ removeUnsafeBytes r := by
  unfold removeUnsafeBytes
  exact List.filter_append _ _

theorem removeUnsafeBytes_cons_keep (c : Char) (l : List Char)
    (h : 32 < c.toNat) : removeUnsafeBytes (c :: l) = c :: removeUnsafeBytes l := by
  have := removeUnsafeBytes_append [c] l
  rw [List.singleton_append] at this
  rw [this, removeUnsafeBytes_clean [c] (by intro x hx; simp at hx; subst hx; exact h)]
  rfl

theorem splitScheme_slash (t : List Char) : splitScheme ('/' :: t) = '/' :: t := by
  unfold splitScheme
  rw [if_neg]
  rintro ⟨-, -, h3, -⟩
  rw [List.takeWhile_cons_of_pos (by decide), List.headD_cons] at h3
  exact absurd h3 (by decide)

theorem splitNetloc_id (l : List Char) (h : l.take 2 ≠ ['/', '/']) :
    splitNetloc l = l := by
  unfold splitNetloc
  rw [if_neg h]

theorem dropParamsLastSeg_no_semi (l : List Char)
    (h : ∀ c ∈ l, (c != ';') = true) : dropParamsLastSeg l = l := by
  induction l with
  | nil => rfl
  | cons c rest ih =>
    show (if c = '/' ∧ rest.contains '/' = false then
        c :: rest.takeWhile (fun x => x != ';')
      else c :: dropParamsLastSeg rest) = c :: rest
    by_cases hcond : c = '/' ∧ rest.contains '/' = false
    · rw [if_pos hcond]
      congr 1
      exact takeWhile_all _ _ (fun a ha => h a (List.mem_cons_of_mem _ ha))
    · rw [if_neg hcond]
      congr 1
      exact ih (fun a ha => h a (List.mem_cons_of_mem _ ha))

theorem splitParams_slash (t : List Char)
    (h : ∀ c ∈ t, (c != ';') = true) : splitParams ('/' :: t) = '/' :: t := by
  unfold splitParams
  rw [if_pos]
  · refine dropParamsLastSeg_no_semi _ ?_
    intro c hc
    rcases List.mem_cons.mp hc with h1 | h1
    · subst h1; decide
    · exact h c h1
  · simp [List.contains_cons]

theorem strip_append_query (l r : List Char)
    (hq : ∀ c ∈ l, (c != '?') = true) (hf : ∀ c ∈ l, (c != '#') = true) :
    ((l ++ '?' :: r).takeWhile (fun c => c != '#')).takeWhile
      (fun c => c != '?') = l := by
  have h1 : ∀ c ∈ l ++ ['?'], (c != '#') = true := by
    intro c hc
    rcases List.mem_append.mp hc with hL | hR
    · exact hf c hL
    · simp at hR
      subst hR
      decide
  have step1 : (l ++ '?' :: r).takeWhile (fun c => c != '#') =
      (l ++ ['?']) ++ r.takeWhile (fun c => c != '#') := by
    have := @List.takeWhile_append_of_pos Char (fun c => c != '#') (l ++ ['?']) r h1
    simpa using this
  rw [step1, List.append_assoc, List.singleton_append]
  have step2 := @List.takeWhile_append_of_pos Char (fun c => c != '?') l
    ('?' :: r.takeWhile (fun c => c != '#')) hq
  rw [step2]
  simp

theorem strip_append_fragment (l r : List Char)
    (hq : ∀ c ∈ l, (c != '?') = true) (hf : ∀ c ∈ l, (c != '#') = true) :
    ((l ++ '#' :: r).takeWhile (fun c => c != '#')).takeWhile
      (fun c => c != '?') = l := by
  have step1 : (l ++ '#' :: r).takeWhile (fun c => c != '#') = l := by
    have := @List.takeWhile_append_of_pos Char (fun c => c != '#') l ('#' :: r) hf
    rw [this]
    simp
  rw [step1]
  exact takeWhile_all _ _ hq

theorem take_two_ne (l : List Char) (hl : l.head? ≠ some '/') :
    ('/' :: l).take 2 ≠ ['/', '/'] := by
  cases l with
  | nil => decide
  | cons a l' =>
    intro h
    simp [List.take] at h
    exact hl (by rw [h]; rfl)

theorem head_append_ne (t x : List Char) (ht : t.head? ≠ some '/')
    (hx : x.head? ≠ some '/') : (t ++ x).head? ≠ some '/' := by
  cases t with
  | nil => simpa using hx
  | cons c t' => simpa using ht

theorem stripFragmentQuery_all (l : List Char)
    (hq : ∀ c ∈ l, (c != '?') = true) (hf : ∀ c ∈ l, (c != '#') = true) :
    stripFragmentQuery l = l := by
  unfold stripFragmentQuery
  rw [takeWhile_all _ _ hf, takeWhile_all _ _ hq]

theorem urlparsePathList_clean (t rest : List Char)
    (hq : ∀ c ∈ t, (c != '?') = true)
    (hf : ∀ c ∈ t, (c != '#') = true)
    (hsemi : ∀ c ∈ t, (c != ';') = true)
    (hvis : ∀ c ∈ t, 32 < c.toNat)
    (hnd : t.head? ≠ some '/')
    (hrest : rest = [] ∨ (∃ r, rest = '?' :: r) ∨ (∃ r, rest = '#' :: r)) :
    urlparsePathList ('/' :: (t ++ rest)) = '/' :: t := by
  have hq' : ∀ c ∈ '/' :: t, (c != '?') = true := by
    intro c hc
    rcases List.mem_cons.mp hc with h1 | h1
    · subst h1; decide
    · exact hq c h1
  have hf' : ∀ c ∈ '/' :: t, (c != '#') = true := by
    intro c hc
    rcases List.mem_cons.mp hc with h1 | h1
    · subst h1; decide
    · exact hf c h1
  unfold urlparsePathList
  rw [lstripC0_slash]
  have e2 : removeUnsafeBytes ('/' :: (t ++ rest)) =
      '/' :: (t ++ removeUnsafeBytes rest) := by
    show removeUnsafeBytes (('/' :: t) ++ rest) = _
    rw [removeUnsafeBytes_append, removeUnsafeBytes_clean ('/' :: t) ?hcl]
    · rfl
    case hcl =>
      intro c hc
      rcases List.mem_cons.mp hc with h1 | h1
      · subst h1; decide
      · exact hvis c h1
  rw [e2]
  rcases hrest with hr0 | ⟨r, hr⟩ | ⟨r, hr⟩
  · subst hr0
    have hrr : removeUnsafeBytes ([] : List Char) = [] := rfl
    rw [hrr, List.append_nil, splitScheme_slash,
      splitNetloc_id _ (take_two_ne t hnd),
      stripFragmentQuery_all _ hq' hf', splitParams_slash t hsemi]
  · subst hr
    rw [removeUnsafeBytes_cons_keep '?' r (by decide), splitScheme_slash,
      splitNetloc_id _ (take_two_ne _
        (head_append_ne t ('?' :: removeUnsafeBytes r) hnd (by simp)))]
    have e5 : stripFragmentQuery ('/' :: (t ++ '?' :: removeUnsafeBytes r)) =
        '/' :: t := strip_append_query ('/' :: t) (removeUnsafeBytes r) hq' hf'
    rw [e5, splitParams_slash t hsemi]
  · subst hr
    rw [removeUnsafeBytes_cons_keep '#' r (by decide), splitScheme_slash,
      splitNetloc_id _ (take_two_ne _
        (head_append_ne t ('#' :: removeUnsafeBytes r) hnd (by simp)))]
    have e5 : stripFragmentQuery ('/' :: (t ++ '#' :: removeUnsafeBytes r)) =
        '/' :: t := strip_append_fragment ('/' :: t) (removeUnsafeBytes r) hq' hf'
    rw [e5, splitParams_slash t hsemi]

/-- C6 (amended): the request path used by the routing decision is the raw
path component returned by `urlparse` — the query string and any fragment
are discarded, `;params` are split off the last path segment and tab, CR,
LF and leading control characters are removed, but NO percent-decoding is
performed.  For a request path that starts with `/` (not `//`) and
contains no `?`, `#`, `;` or control/space character, the asset
classification and the existence check operate on exactly that path with
the query string and fragment discarded. -/
theorem c6_routing_on_query_stripped_path (fs : Fs) (p q f : String)
    (hq : ∀ c ∈ p.data, (c != '?') = true)
    (hf : ∀ c ∈ p.data, (c != '#') = true)
    (hsemi : ∀ c ∈ p.data, (c != ';') = true)
    (hvis : ∀ c ∈ p.data, 32 < c.toNat)
    (hslash : p.data.head? = some '/')
    (hnn : p.data.take 2 ≠ ['/', '/']) :
    extractPath p = p ∧
    extractPath (p ++ "?" ++ q) = p ∧
    extractPath (p ++ "#" ++ f) = p ∧
    doGet fs (p ++ "?" ++ q) = servePath fs p ∧
    doGet fs p = servePath fs p := by
  obtain ⟨t, hp⟩ : ∃ t, p.data = '/' :: t := by
    cases hd : p.data with
    | nil => rw [hd] at hslash; exact absurd hslash (by simp)
    | cons c t' =>
      rw [hd] at hslash
      have hc : c = '/' := by simpa using hslash
      exact ⟨t', by rw [hc]⟩
  have hqt : ∀ c ∈ t, (c != '?') = true := fun c hc =>
    hq c (by rw [hp]; exact List.mem_cons_of_mem _ hc)
  have hft : ∀ c ∈ t, (c != '#') = true := fun c hc =>
    hf c (by rw [hp]; exact List.mem_cons_of_mem _ hc)
  have hst : ∀ c ∈ t, (c != ';') = true := fun c hc =>
    hsemi c (by rw [hp]; exact List.mem_cons_of_mem _ hc)
  have hvt : ∀ c ∈ t, 32 < c.toNat := fun c hc =>
    hvis c (by rw [hp]; exact List.mem_cons_of_mem _ hc)
  have hndt : t.head? ≠ some '/' := by
    intro hh
    apply hnn
    rw [hp]
    cases t with
    | nil => simp at hh
    | cons a t' =>
      have ha : a = '/' := by simpa using hh
      rw [ha]
      rfl
  have e1 : extractPath p = p := by
    show (⟨urlparsePathList p.data⟩ : String) = p
    rw [hp]
    have hshape : ('/' :: t) = '/' :: (t ++ []) := by rw [List.append_nil]
    rw [hshape, urlparsePathList_clean t [] hqt hft hst hvt hndt (Or.inl rfl),
      ← hp]
  have e2 : extractPath (p ++ "?" ++ q) = p := by
    show (⟨urlparsePathList (p ++ "?" ++ q).data⟩ : String) = p
    have hdata : (p ++ "?" ++ q).data = '/' :: (t ++ '?' :: q.data) := by
      simp [String.data_append, hp]
    rw [hdata, urlparsePathList_clean t ('?' :: q.data) hqt hft hst hvt hndt
      (Or.inr (Or.inl ⟨q.data, rfl⟩)), ← hp]
  have e3 : extractPath (p ++ "#" ++ f) = p := by
    show (⟨urlparsePathList (p ++ "#" ++ f).data⟩ : String) = p
    have hdata : (p ++ "#" ++ f).data = '/' :: (t ++ '#' :: f.data) := by
      simp [String.data_append, hp]
    rw [hdata, urlparsePathList_clean t ('#' :: f.data) hqt hft hst hvt hndt
      (Or.inr (Or.inr ⟨f.data, rfl⟩)), ← hp]
  refine ⟨e1, e2, e3, ?_, ?_⟩
  · show servePath fs (extractPath (p ++ "?" ++ q)) = servePath fs p
    rw [e2]
  · show servePath fs (extractPath p) = servePath fs p
    rw [e1]

theorem c6_routing_on_query_stripped_path_witness :
    (∀ c ∈ ("/dashboard" : String).data, (c != '?') = true) ∧
    (∀ c ∈ ("/dashboard" : String).data, (c != '#') = true) ∧
    (∀ c ∈ ("/dashboard" : String).data, (c != ';') = true) ∧
    (∀ c ∈ ("/dashboard" : String).data, 32 < c.toNat) ∧
    ("/dashboard" : String).data.head? = some '/' ∧
    ("/dashboard" : String).data.take 2 ≠ ['/', '/'] ∧
    (extractPath "/dashboard" = "/dashboard" ∧
      extractPath ("/dashboard" ++ "?" ++ "tab=1") = "/dashboard" ∧
      extractPath ("/dashboard" ++ "#" ++ "top") = "/dashboard" ∧
      doGet emptyFs ("/dashboard" ++ "?" ++ "tab=1") =
        servePath emptyFs "/dashboard" ∧
      doGet emptyFs "/dashboard" = servePath emptyFs "/dashboard") :=
  ⟨by decide, by decide, by decide, by decide, by decide, by decide,
    c6_routing_on_query_stripped_path emptyFs "/dashboard" "tab=1" "top"
      (by decide) (by decide) (by decide) (by decide) (by decide) (by decide)⟩

theorem extractPath_params_last_seg : extractPath "/a;x" = "/a" := by decide

theorem extractPath_params_earlier_seg : extractPath "/a;x/b" = "/a;x/b" := by decide

theorem extractPath_params_css : extractPath "/style.css;v" = "/style.css" := by decide

theorem extractPath_tab_removed : extractPath "/a\tb" = "/ab" := by decide

theorem extractPath_netloc_split : extractPath "//host/path" = "/path" := by decide

theorem extractPath_scheme_split : extractPath "http://h/p" = "/p" := by decide
